import Mathlib

/-!
A verification development for the stereophonic voice engine.

This file gives a shallow embedding of the voice components of the engine
(`adsr.go`, `filter.go`, `tableplayer.go`, `playbackevent.go`) and proves
properties of the embedded definitions.  Go `float64` is modelled as `ℝ`,
Go `int` as `ℤ`; Go's float-to-int conversion truncates toward zero
(`go_int` below).  Callback closures (the envelope `doneAction`) are
modelled by the pair of flags `hasDoneAction`/`ranDoneAction`: the moment
the Go code would invoke the callback is the moment `ranDoneAction` is set.
-/

namespace Stereophonic

noncomputable section

/-- Go's `int(x)` conversion applied to a `float64` `x`: truncation toward
zero (floor for nonnegative reals, ceiling for negative ones). -/
def go_int (x : ℝ) : ℤ := if 0 ≤ x then ⌊x⌋ else ⌈x⌉

/-! ## adsr.go -/

/-- `adsrMinimumLevel` from `adsr.go`: the floor level 0.0001. -/
def adsrMinimumLevel : ℝ := 1 / 10000

/-- Stage indices mirroring the Go iota constants. -/
def adsrOffStage : ℕ := 0
def adsrAttackStage : ℕ := 1
def adsrDecayStage : ℕ := 2
def adsrSustainStage : ℕ := 3
def adsrReleaseStage : ℕ := 4

/-- The `adsrEnvelope` struct.  The Go `stage []float64` slice is stored as
five separate fields (indices 0..4); `stage` below recovers the indexed
lookup. -/
structure adsrEnvelope where
  stageOff : ℝ
  stageAttack : ℝ
  stageDecay : ℝ
  stageSustain : ℝ
  stageRelease : ℝ
  currentStage : ℕ
  currentTick : ℤ
  currentLevel : ℝ
  multiplier : ℝ
  sampleRate : ℝ
  hasDoneAction : Bool
  ranDoneAction : Bool

/-- `adsr.stage[i]`. -/
def adsrEnvelope.stage (e : adsrEnvelope) (i : ℕ) : ℝ :=
  if i = adsrOffStage then e.stageOff
  else if i = adsrAttackStage then e.stageAttack
  else if i = adsrDecayStage then e.stageDecay
  else if i = adsrSustainStage then e.stageSustain
  else e.stageRelease

/-- `calculateLevelMultiplier` from `adsr.go`. -/
def calculateLevelMultiplier (startLevel targetLevel numberOfFrames : ℝ) : ℝ :=
  if numberOfFrames < 1 then
    1 + (Real.log targetLevel - Real.log startLevel)
  else
    1 + (Real.log targetLevel - Real.log startLevel) / numberOfFrames

/-- `setAttack` from `adsr.go`. -/
def adsrEnvelope.setAttack (e : adsrEnvelope) (attackTimeInSeconds : ℝ) :
    adsrEnvelope :=
  let a : ℝ := ((⌊max (attackTimeInSeconds * e.sampleRate) 0⌋ : ℤ) : ℝ)
  let e1 := {e with stageAttack := a}
  if e.currentStage = adsrAttackStage then
    let ticksLeft := a - (e.currentTick : ℝ)
    {e1 with multiplier := calculateLevelMultiplier e.currentLevel 1 ticksLeft}
  else e1

/-- `setDecay` from `adsr.go`. -/
def adsrEnvelope.setDecay (e : adsrEnvelope) (decayTimeInSeconds : ℝ) :
    adsrEnvelope :=
  let d : ℝ := ((⌊max (decayTimeInSeconds * e.sampleRate) 0⌋ : ℤ) : ℝ)
  let e1 := {e with stageDecay := d}
  if e.currentStage = adsrDecayStage then
    let ticksLeft := d - (e.currentTick : ℝ)
    {e1 with multiplier :=
      calculateLevelMultiplier e.currentLevel e.stageSustain ticksLeft}
  else e1

/-- `setSustain` from `adsr.go`. -/
def adsrEnvelope.setSustain (e : adsrEnvelope) (sustainLevel : ℝ) :
    adsrEnvelope :=
  let sl := min 1 (max sustainLevel adsrMinimumLevel)
  let e1 := {e with stageSustain := sl}
  if e.currentStage = adsrDecayStage then
    let ticksLeft := e.stageDecay - (e.currentTick : ℝ)
    {e1 with multiplier := calculateLevelMultiplier e.currentLevel sl ticksLeft}
  else if e.currentStage = adsrSustainStage then
    {e1 with currentLevel := sl}
  else e1

/-- `setRelease` from `adsr.go`. -/
def adsrEnvelope.setRelease (e : adsrEnvelope) (releaseTimeInSeconds : ℝ) :
    adsrEnvelope :=
  let r : ℝ := ((⌊max (releaseTimeInSeconds * e.sampleRate) 0⌋ : ℤ) : ℝ)
  let e1 := {e with stageRelease := r}
  if e.currentStage = adsrReleaseStage then
    let ticksLeft := r - (e.currentTick : ℝ)
    {e1 with multiplier :=
      calculateLevelMultiplier e.currentLevel adsrMinimumLevel ticksLeft}
  else e1

/-- `attack()` from `adsr.go`: enter the attack stage from the beginning. -/
def adsrEnvelope.attack (e : adsrEnvelope) : adsrEnvelope :=
  {e with currentStage := adsrAttackStage,
          multiplier := calculateLevelMultiplier adsrMinimumLevel 1 e.stageAttack,
          currentTick := 0}

/-- `release()` from `adsr.go`: enter the release stage.  Note that the
multiplier is computed from `stage[adsrSustainStage]`, not from
`currentLevel`. -/
def adsrEnvelope.release (e : adsrEnvelope) : adsrEnvelope :=
  {e with currentStage := adsrReleaseStage,
          multiplier := calculateLevelMultiplier e.stageSustain adsrMinimumLevel
            e.stageRelease,
          currentTick := 0}

/-- The body of `newADSREnvelope` after the sample-rate check: Go zero
values, then `stage[adsrOffStage] = adsrMinimumLevel`, the four setters, and
a final `attack()`. -/
def mkADSREnvelope (attackTimeInSeconds decayTimeInSeconds sustainLevel
    releaseTimeInSeconds sampleRate : ℝ) : adsrEnvelope :=
  let e0 : adsrEnvelope :=
    { stageOff := adsrMinimumLevel, stageAttack := 0, stageDecay := 0,
      stageSustain := 0, stageRelease := 0,
      currentStage := 0, currentTick := 0,
      currentLevel := adsrMinimumLevel, multiplier := 1,
      sampleRate := sampleRate, hasDoneAction := false, ranDoneAction := false }
  ((((e0.setAttack attackTimeInSeconds).setDecay decayTimeInSeconds).setSustain
      sustainLevel).setRelease releaseTimeInSeconds).attack

/-- `newADSREnvelope` from `adsr.go` (errors on `sampleRate <= 0`). -/
def newADSREnvelope (attackTimeInSeconds decayTimeInSeconds sustainLevel
    releaseTimeInSeconds sampleRate : ℝ) : Option adsrEnvelope :=
  if sampleRate ≤ 0 then none
  else some (mkADSREnvelope attackTimeInSeconds decayTimeInSeconds sustainLevel
    releaseTimeInSeconds sampleRate)

/-- `tick()` from `adsr.go`.  Go's `tick` mutates the envelope and returns
`adsr.currentLevel`; here the returned level is `(e.tick).currentLevel`. -/
def adsrEnvelope.tick (e : adsrEnvelope) : adsrEnvelope :=
  if e.currentStage ≠ adsrOffStage ∧ e.currentStage ≠ adsrSustainStage then
    if (e.currentTick : ℝ) < e.stage e.currentStage then
      {e with currentLevel := e.currentLevel * e.multiplier,
              currentTick := e.currentTick + 1}
    else
      let e0 := {e with currentTick := 0}
      if e.currentStage = adsrAttackStage then
        {e0 with currentStage := adsrDecayStage,
                 multiplier :=
                   calculateLevelMultiplier 1 e.stageSustain e.stageDecay}
      else if e.currentStage = adsrDecayStage then
        {e0 with currentStage := adsrSustainStage, multiplier := e.stageSustain}
      else if e.currentStage = adsrSustainStage then
        {e0 with currentStage := adsrReleaseStage,
                 multiplier := calculateLevelMultiplier e.stageSustain
                   adsrMinimumLevel e.stageRelease}
      else if e.currentStage = adsrReleaseStage then
        {e0 with currentStage := adsrOffStage,
                 currentLevel := adsrMinimumLevel,
                 ranDoneAction := e.ranDoneAction || e.hasDoneAction}
      else e0
  else e

/-- `n` successive calls of `tick()`. -/
def adsrEnvelope.tickN (e : adsrEnvelope) : ℕ → adsrEnvelope
  | 0 => e
  | n + 1 => (e.tickN n).tick

/-- `isOff()` from `adsr.go`. -/
def adsrEnvelope.isOff (e : adsrEnvelope) : Bool :=
  e.currentStage = adsrOffStage

/-! ## filter.go -/

/-- The `FilterMode` enum. -/
inductive FilterMode where
  | NoFilter
  | LPFilter
  | HPFilter
  | BPFilter
deriving DecidableEq

/-- The float literal `0.9999999999999999` used by `filter.go` to clamp the
cutoff (and resonance) strictly below 1. -/
def cutoffMax : ℝ := 9999999999999999 / 10000000000000000

/-- The `filter` struct. -/
structure filter where
  filterMode : FilterMode
  cutoff : ℝ
  resonance : ℝ
  feedback : ℝ
  buf0 : ℝ
  buf1 : ℝ
  buf2 : ℝ
  buf3 : ℝ

/-- `calculateFeedback` from `filter.go`:
`feedback = min(resonance + resonance/(1-cutoff), 1.0)`. -/
def filter.calculateFeedback (f : filter) : filter :=
  {f with feedback := min (f.resonance + f.resonance / (1 - f.cutoff)) 1}

/-- `newFilter` from `filter.go`. -/
def newFilter : filter :=
  filter.calculateFeedback
    { filterMode := .LPFilter, cutoff := cutoffMax, resonance := 0,
      feedback := 0, buf0 := 0, buf1 := 0, buf2 := 0, buf3 := 0 }

/-- `tick` from `filter.go`.  All four integrator buffers are updated
before the mode switch decides the returned sample. -/
def filter.tick (f : filter) (input : ℝ) : ℝ × filter :=
  let buf0 := f.buf0 + f.cutoff * (input - f.buf0 + f.feedback * (f.buf0 - f.buf2))
  let buf1 := f.buf1 + f.cutoff * (buf0 - f.buf1)
  let buf2 := f.buf2 + f.cutoff * (buf1 - f.buf2)
  let buf3 := f.buf3 + f.cutoff * (buf2 - f.buf3)
  let f1 := {f with buf0 := buf0, buf1 := buf1, buf2 := buf2, buf3 := buf3}
  match f.filterMode with
  | .LPFilter => (buf3, f1)
  | .HPFilter => (input - buf3, f1)
  | .BPFilter => (buf0 - buf3, f1)
  | .NoFilter => (input, f1)

/-- `setMode` from `filter.go`. -/
def filter.setMode (f : filter) (m : FilterMode) : filter :=
  {f with filterMode := m}

/-- `setCutoff` from `filter.go`: clamp into `[0, 0.9999999999999999]`, then
recompute the feedback. -/
def filter.setCutoff (f : filter) (c : ℝ) : filter :=
  filter.calculateFeedback {f with cutoff := max (min c cutoffMax) 0}

/-- `setResonance` from `filter.go`: clamp into `[0, 0.9999999999999999]`,
then recompute the feedback. -/
def filter.setResonance (f : filter) (r : ℝ) : filter :=
  filter.calculateFeedback {f with resonance := max (min r cutoffMax) 0}

/-! ## table.go (the fields `tableplayer.go` reads) -/

/-- The `Table` struct (the immutable sample buffer and metadata read by the
table player; the name and lock fields play no role in playback). -/
structure Table where
  channels : ℤ
  sampleRate : ℝ
  samples : List ℝ
  nFrames : ℤ

/-- Reading `samples[i]` from a Go slice.  The Go program panics on an
out-of-range index; every read performed in the theorems below is in range,
and an out-of-range read is mapped to `0` here. -/
def sliceGet (xs : List ℝ) (i : ℤ) : ℝ :=
  if h : 0 ≤ i ∧ i.toNat < xs.length then xs.get ⟨i.toNat, h.2⟩ else 0

/-! ## tableplayer.go -/

/-- The `TablePlayer` struct.  The Go fields `start` and `end` are named
`startIdx` and `endIdx` (`end` is reserved in Lean). -/
structure TablePlayer where
  sampleRate : ℝ
  srFactor : ℝ
  amplitude : ℝ
  dcOffset : ℝ
  balanceMultiplierLeft : ℝ
  balanceMultiplierRight : ℝ
  amplitudeADSREnvelope : adsrEnvelope
  filterLeft : filter
  filterRight : filter
  filterEnvelopeOn : Bool
  filterCutoff : ℝ
  filterEnvelopeDepth : ℝ
  filterADSREnvelope : adsrEnvelope
  table : Table
  phase : ℝ
  phaseIncrement : ℝ
  targetPhaseIncrement : ℝ
  slideFactor : ℝ
  isLooping : Bool
  startIdx : ℤ
  endIdx : ℤ
  loopStart : ℤ
  loopEnd : ℤ
  isReversed : Bool
  isFinished : Bool
  kRate : ℝ
  kCurrentTick : ℤ
  kMaxTicks : ℤ

/-- `SetSpeed` from `tableplayer.go`.  The variadic `slideTime ...float64`
is modelled as an `Option ℝ` (at most one slide time is ever passed). -/
def TablePlayer.setSpeed (tp : TablePlayer) (speed : ℝ)
    (slideTime : Option ℝ) : TablePlayer :=
  if speed ≤ 0 then tp
  else
    let currentSpeed := tp.phaseIncrement
    let targetSpeed0 := speed * tp.srFactor
    let targetSpeed := if currentSpeed < 0 then -targetSpeed0 else targetSpeed0
    let tp1 := {tp with targetPhaseIncrement := targetSpeed,
                        phaseIncrement := targetSpeed}
    match slideTime with
    | none => tp1
    | some slideTimeInSeconds =>
      if 0 < slideTimeInSeconds then
        let n := slideTimeInSeconds * tp.sampleRate
        {tp1 with phaseIncrement := currentSpeed,
                  slideFactor := |targetSpeed - currentSpeed| / n}
      else tp1

/-- `SetLooping` from `tableplayer.go`: turning looping on clears the
`isFinished` flag. -/
def TablePlayer.setLooping (tp : TablePlayer) (loopingOn : Bool) : TablePlayer :=
  if loopingOn then {tp with isFinished := false, isLooping := loopingOn}
  else {tp with isLooping := loopingOn}

/-- `SetSlice` from `tableplayer.go`. -/
def TablePlayer.setSlice (tp : TablePlayer) (startFraction endFraction : ℝ) :
    TablePlayer :=
  let s0 := min (max 0 startFraction) 1
  let e0 := min (max 0 endFraction) 1
  if s0 < e0 then
    let s := go_int (((tp.table.nFrames - 1 : ℤ) : ℝ) * s0)
    let e := go_int (((tp.table.nFrames - 1 : ℤ) : ℝ) * e0)
    if 1 ≤ e - s then {tp with startIdx := s, endIdx := e} else tp
  else tp

/-- `SetLoopSlice` from `tableplayer.go`. -/
def TablePlayer.setLoopSlice (tp : TablePlayer)
    (loopStartFraction loopEndFraction : ℝ) : TablePlayer :=
  let s0 := min (max 0 loopStartFraction) 1
  let e0 := min (max 0 loopEndFraction) 1
  if s0 < e0 then
    let s := go_int (((tp.table.nFrames - 1 : ℤ) : ℝ) * s0)
    let e := go_int (((tp.table.nFrames - 1 : ℤ) : ℝ) * e0)
    if 1 ≤ e - s then {tp with loopStart := s, loopEnd := e} else tp
  else tp

/-- `Trigger` from `tableplayer.go`. -/
def TablePlayer.trigger (tp : TablePlayer) : TablePlayer :=
  if tp.isReversed then {tp with phase := ((tp.endIdx : ℤ) : ℝ), isFinished := false}
  else {tp with phase := ((tp.startIdx : ℤ) : ℝ), isFinished := false}

/-- `Attack` from `tableplayer.go`. -/
def TablePlayer.attack (tp : TablePlayer) : TablePlayer :=
  {tp with amplitudeADSREnvelope := tp.amplitudeADSREnvelope.attack,
           filterADSREnvelope := tp.filterADSREnvelope.attack}

/-- `Release` from `tableplayer.go`. -/
def TablePlayer.release (tp : TablePlayer) : TablePlayer :=
  {tp with amplitudeADSREnvelope := tp.amplitudeADSREnvelope.release,
           filterADSREnvelope := tp.filterADSREnvelope.release}

/-- `SetBalance` from `tableplayer.go`. -/
def TablePlayer.setBalance (tp : TablePlayer) (balance : ℝ) : TablePlayer :=
  if balance < -1 ∨ 1 < balance then tp
  else if balance = 0 then
    {tp with balanceMultiplierLeft := 1, balanceMultiplierRight := 1}
  else if 0 < balance then
    {tp with balanceMultiplierLeft := 1 - balance, balanceMultiplierRight := 1}
  else
    {tp with balanceMultiplierLeft := 1, balanceMultiplierRight := 1 + balance}

/-- The body of `NewTablePlayer` after its error checks (Go struct literal
defaults, followed by the final `SetSpeed(1.0)` call). -/
def mkTablePlayer (t : Table) (sampleRate : ℝ) : TablePlayer :=
  let srFactor := t.sampleRate / sampleRate
  let tp0 : TablePlayer :=
    { sampleRate := sampleRate
      srFactor := srFactor
      amplitude := 1
      dcOffset := 0
      balanceMultiplierLeft := 1
      balanceMultiplierRight := 1
      amplitudeADSREnvelope := mkADSREnvelope 0 1 1 (1 / 1000) sampleRate
      filterLeft := newFilter
      filterRight := newFilter
      filterEnvelopeOn := false
      filterCutoff := 0
      filterEnvelopeDepth := 1 / 2
      filterADSREnvelope := mkADSREnvelope 0 1 1 (1 / 1000) sampleRate
      table := t
      phase := 0
      phaseIncrement := srFactor
      targetPhaseIncrement := srFactor
      slideFactor := 0
      isLooping := false
      startIdx := 0
      endIdx := t.nFrames - 1
      loopStart := 0
      loopEnd := t.nFrames - 1
      isReversed := false
      isFinished := false
      kRate := 100
      kCurrentTick := 0
      kMaxTicks := go_int (sampleRate / 100 + 1) }
  tp0.setSpeed 1 none

/-- `NewTablePlayer` from `tableplayer.go` (errors on a table with fewer
than one frame or a sample rate below 1; the nil-table check has no
counterpart for a non-nullable `Table`). -/
def newTablePlayer (t : Table) (sampleRate : ℝ) : Option TablePlayer :=
  if t.nFrames < 1 then none
  else if sampleRate < 1 then none
  else some (mkTablePlayer t sampleRate)

/-- The early-return branch of `tick()` from `tableplayer.go` when
`isFinished`: silence, but the amplitude envelope (and, when enabled, the
filter envelope and control-rate counter) still advance. -/
def TablePlayer.tickFinished (tp : TablePlayer) : (ℝ × ℝ) × TablePlayer :=
  let tp1 := {tp with amplitudeADSREnvelope := tp.amplitudeADSREnvelope.tick}
  if tp.filterEnvelopeOn then
    ((0, 0), {tp1 with filterADSREnvelope := tp.filterADSREnvelope.tick,
                       kCurrentTick := (tp.kCurrentTick + 1) % tp.kMaxTicks})
  else ((0, 0), tp1)

/-- The `update phase increment` block of `tick()` from `tableplayer.go`:
step the current phase increment toward the target by the slide factor,
clamping at the target on overshoot. -/
def slideIncrement (inc target sf : ℝ) : ℝ :=
  if inc = target then inc
  else if inc < target then
    (if target < inc + sf then target else inc + sf)
  else
    (if inc - sf < target then target else inc - sf)

/-- The boundary-detection block of `tick()` from `tableplayer.go`: given
the advanced phase `phase1` and the slid increment `inc1`, compute
`next = int(phase1)` and return the corrected phase and finished flag
(looping wraps to loopStart/loopEnd by direction; non-looping clamps to
start/end and marks finished). -/
def boundaryCheck (tp : TablePlayer) (phase1 inc1 : ℝ) : ℝ × Bool :=
  let next := go_int phase1
  if tp.isLooping then
    if 0 ≤ inc1 ∧ tp.loopEnd < next then (((tp.loopStart : ℤ) : ℝ), tp.isFinished)
    else if ¬ 0 ≤ inc1 ∧ next < tp.loopStart then
      (((tp.loopEnd : ℤ) : ℝ), tp.isFinished)
    else (phase1, tp.isFinished)
  else
    if tp.endIdx < next then (((tp.endIdx : ℤ) : ℝ), true)
    else if next < tp.startIdx then (((tp.startIdx : ℤ) : ℝ), true)
    else (phase1, tp.isFinished)

/-- The main branch of `tick()` from `tableplayer.go`: read the frame at
`int(phase)`, run the control-rate filter-envelope block, filter, add the
DC offset, scale by amplitude-envelope/amplitude/balance, advance the
phase, slide the phase increment toward its target, and run the boundary
(loop wrap / finish) detection. -/
def TablePlayer.tickActive (tp : TablePlayer) : (ℝ × ℝ) × TablePlayer :=
  let i := go_int tp.phase
  let left0 : ℝ :=
    if tp.table.channels = 1 then sliceGet tp.table.samples i
    else if tp.table.channels = 2 then sliceGet tp.table.samples (2 * i)
    else 0
  let right0 : ℝ :=
    if tp.table.channels = 1 then sliceGet tp.table.samples i
    else if tp.table.channels = 2 then sliceGet tp.table.samples (2 * i + 1)
    else 0
  let tp1 :=
    if tp.filterEnvelopeOn then
      let fenv := tp.filterADSREnvelope.tick
      let tp0 :=
        if tp.kCurrentTick = 0 then
          let cutoff := tp.filterCutoff + fenv.currentLevel * tp.filterEnvelopeDepth
          {tp with filterADSREnvelope := fenv,
                   filterLeft := tp.filterLeft.setCutoff cutoff,
                   filterRight := tp.filterRight.setCutoff cutoff}
        else {tp with filterADSREnvelope := fenv}
      {tp0 with kCurrentTick := (tp0.kCurrentTick + 1) % tp0.kMaxTicks}
    else tp
  let lf := tp1.filterLeft.tick left0
  let rf := tp1.filterRight.tick right0
  let left1 := lf.1 + tp.dcOffset
  let right1 := rf.1 + tp.dcOffset
  let aenv := tp.amplitudeADSREnvelope.tick
  let a := tp.amplitude * aenv.currentLevel
  let left2 := left1 * (a * tp.balanceMultiplierLeft)
  let right2 := right1 * (a * tp.balanceMultiplierRight)
  let phase1 := tp.phase + tp.phaseIncrement
  let inc1 := slideIncrement tp.phaseIncrement tp.targetPhaseIncrement tp.slideFactor
  let pf := boundaryCheck tp phase1 inc1
  ((left2, right2),
   {tp1 with amplitudeADSREnvelope := aenv,
             filterLeft := lf.2,
             filterRight := rf.2,
             phase := pf.1,
             phaseIncrement := inc1,
             isFinished := pf.2})

/-- `tick()` from `tableplayer.go`. -/
def TablePlayer.tick (tp : TablePlayer) : (ℝ × ℝ) × TablePlayer :=
  if tp.isFinished then tp.tickFinished else tp.tickActive

/-- `n` successive calls of the player's `tick()` (states only). -/
def TablePlayer.tickN (tp : TablePlayer) : ℕ → TablePlayer
  | 0 => tp
  | n + 1 => ((tp.tickN n).tick).2

/-! ## playbackevent.go -/

/-- The playback-state iota constants. -/
def playbackLimitedDuration : ℕ := 0
def playbackUnlimitedDuration : ℕ := 1
def playbackDelay : ℕ := 2

/-- The `playbackEvent` struct: the embedded `*tablePlayer` is the `player`
field. -/
structure playbackEvent where
  delayInFrames : ℤ
  durationInFrames : ℤ
  player : TablePlayer
  currentState : ℕ
  isLimitedDuration : Bool

/-- The event-construction part of `Engine.Prepare` (lines after the
engine's started/slot checks and table-player creation): clamp the delay,
convert delay and duration to frames at the stream sample rate, pick the
initial state, and attach the done action to the player's amplitude
envelope. -/
def prepareEvent (tablePlayer : TablePlayer)
    (delayInSeconds durationInSeconds streamSampleRate : ℝ) : playbackEvent :=
  let d := max delayInSeconds 0
  let delayInFrames := go_int (d * streamSampleRate)
  let durationInFrames := go_int (durationInSeconds * streamSampleRate)
  { delayInFrames := delayInFrames
    durationInFrames := durationInFrames
    player := {tablePlayer with amplitudeADSREnvelope :=
      {tablePlayer.amplitudeADSREnvelope with hasDoneAction := true}}
    currentState :=
      if 0 < d then playbackDelay
      else if 0 < durationInSeconds then playbackLimitedDuration
      else playbackUnlimitedDuration
    isLimitedDuration := 0 < durationInSeconds }

/-- The `playbackUnlimitedDuration` arm of the event's `tick()`. -/
def playbackEvent.tickUnlimited (p : playbackEvent) : (ℝ × ℝ) × playbackEvent :=
  let r := p.player.tick
  (r.1, {p with player := r.2})

/-- The `playbackLimitedDuration` arm of the event's `tick()`: while frames
remain, tick the player; once exhausted, switch to unlimited duration,
invoke the player's `Release()`, and retry. -/
def playbackEvent.tickLimited (p : playbackEvent) : (ℝ × ℝ) × playbackEvent :=
  if 0 < p.durationInFrames then
    let r := p.player.tick
    (r.1, {p with durationInFrames := p.durationInFrames - 1, player := r.2})
  else
    playbackEvent.tickUnlimited
      {p with currentState := playbackUnlimitedDuration, player := p.player.release}

/-- `tick()` from `playbackevent.go`, with the `goto retry` loop unfolded
into the two helper arms above. -/
def playbackEvent.tick (p : playbackEvent) : (ℝ × ℝ) × playbackEvent :=
  if p.currentState = playbackLimitedDuration then p.tickLimited
  else if p.currentState = playbackUnlimitedDuration then p.tickUnlimited
  else if p.currentState = playbackDelay then
    if 0 < p.delayInFrames then
      ((0, 0), {p with delayInFrames := p.delayInFrames - 1})
    else if p.isLimitedDuration then
      playbackEvent.tickLimited {p with currentState := playbackLimitedDuration}
    else
      playbackEvent.tickUnlimited {p with currentState := playbackUnlimitedDuration}
  else ((0, 0), p)

/-- `n` successive calls of the event's `tick()` (states only). -/
def playbackEvent.tickN (p : playbackEvent) : ℕ → playbackEvent
  | 0 => p
  | n + 1 => ((p.tickN n).tick).2

/-! ## Theorems -/

/-- A concrete envelope state: sustaining at level 1 with sustain level 1/2
and a two-frame release stage. -/
def adsrC1 : adsrEnvelope :=
  { stageOff := adsrMinimumLevel, stageAttack := 1, stageDecay := 1,
    stageSustain := 1 / 2, stageRelease := 2,
    currentStage := adsrSustainStage, currentTick := 0,
    currentLevel := 1, multiplier := 1 / 2,
    sampleRate := 1, hasDoneAction := false, ranDoneAction := false }

/-- C1 counterexample: on an envelope whose current level (1) differs from
its sustain level (1/2), `release()` does NOT compute the release multiplier
from the current level: the multiplier it installs differs from
`calculateLevelMultiplier(currentLevel, adsrMinimumLevel, releaseFrames)`. -/
theorem release_multiplier_not_from_current_level :
    adsrC1.release.multiplier ≠
      calculateLevelMultiplier adsrC1.currentLevel adsrMinimumLevel
        adsrC1.stageRelease := by
  have hlog : Real.log (1 / 2) < 0 :=
    Real.log_neg (by norm_num) (by norm_num)
  simp only [adsrC1, adsrEnvelope.release, calculateLevelMultiplier,
    adsrMinimumLevel]
  norm_num
  intro h
  nlinarith [h, Real.log_one, hlog]

/-- C1 (amended): `release()` from any stage enters the Release stage,
resets the tick counter, leaves the level untouched, and recomputes the
per-tick multiplier with the *sustain level* `stage[adsrSustainStage]` as
the start level (not the current level) and the floor level as target. -/
theorem release_enters_release_from_sustain_level (e : adsrEnvelope) :
    e.release.currentStage = adsrReleaseStage ∧
    e.release.multiplier =
      calculateLevelMultiplier (e.stage adsrSustainStage) adsrMinimumLevel
        (e.stage adsrReleaseStage) ∧
    e.release.currentTick = 0 ∧
    e.release.currentLevel = e.currentLevel := by
  refine ⟨rfl, ?_, rfl, rfl⟩
  simp [adsrEnvelope.release, adsrEnvelope.stage, adsrOffStage,
    adsrAttackStage, adsrDecayStage, adsrSustainStage, adsrReleaseStage]

/-- C5 counterexample: with cutoff 1/2 and resonance 1/2 (both unchanged by
the clamps), `resonance + resonance/(1-cutoff) = 3/2`, but the stored
feedback is `min(3/2, 1) = 1`, so the claimed equality fails. -/
theorem feedback_clamped_at_one :
    ((newFilter.setCutoff (1 / 2)).setResonance (1 / 2)).feedback ≠
      ((newFilter.setCutoff (1 / 2)).setResonance (1 / 2)).resonance +
        ((newFilter.setCutoff (1 / 2)).setResonance (1 / 2)).resonance /
          (1 - ((newFilter.setCutoff (1 / 2)).setResonance (1 / 2)).cutoff) := by
  norm_num [newFilter, filter.setCutoff, filter.setResonance,
    filter.calculateFeedback, cutoffMax, min_def, max_def]

/-- C5 (amended): after `setCutoff`, after `setResonance`, and at
construction, the stored feedback equals
`min(resonance + resonance/(1-cutoff), 1)` of the stored (clamped) cutoff
and resonance — the code clamps the feedback coefficient at 1. -/
theorem feedback_invariant (f : filter) (c r : ℝ) :
    (f.setCutoff c).feedback =
      min ((f.setCutoff c).resonance +
        (f.setCutoff c).resonance / (1 - (f.setCutoff c).cutoff)) 1 ∧
    (f.setResonance r).feedback =
      min ((f.setResonance r).resonance +
        (f.setResonance r).resonance / (1 - (f.setResonance r).cutoff)) 1 ∧
    newFilter.feedback =
      min (newFilter.resonance + newFilter.resonance / (1 - newFilter.cutoff)) 1 := by
  refine ⟨rfl, rfl, rfl⟩

/-- A filter switched to mode `NoFilter` right after construction. -/
def noFilter0 : filter := newFilter.setMode .NoFilter

/-- C8 counterexample: in mode `NoFilter`, `tick(1)` still mutates the
integrator state: `buf0` changes from 0 to the cutoff value. -/
theorem nofilter_tick_mutates_state :
    (noFilter0.tick 1).2.buf0 ≠ noFilter0.buf0 := by
  norm_num [noFilter0, newFilter, filter.setMode, filter.tick,
    filter.calculateFeedback, cutoffMax, min_def]

/-- C8 (amended): in mode `NoFilter`, `tick(x)` returns `x` unchanged for
every input `x` and leaves mode, cutoff, resonance and feedback unchanged,
but it is NOT free of side effects: the four integrator buffers are still
advanced exactly as in the filtering modes (shown here for `buf0`). -/
theorem nofilter_output_unchanged (f : filter) (x : ℝ)
    (h : f.filterMode = FilterMode.NoFilter) :
    (f.tick x).1 = x ∧
    (f.tick x).2.filterMode = f.filterMode ∧
    (f.tick x).2.cutoff = f.cutoff ∧
    (f.tick x).2.resonance = f.resonance ∧
    (f.tick x).2.feedback = f.feedback ∧
    (f.tick x).2.buf0 =
      f.buf0 + f.cutoff * (x - f.buf0 + f.feedback * (f.buf0 - f.buf2)) := by
  simp [filter.tick, h]

/-- C8 witness: the amended theorem applied to a concrete `NoFilter` filter
and the input 5. -/
theorem nofilter_output_unchanged_witness :
    (noFilter0.tick 5).1 = 5 ∧ (noFilter0.tick 5).2.cutoff = noFilter0.cutoff :=
  ⟨(nofilter_output_unchanged noFilter0 5 rfl).1,
   (nofilter_output_unchanged noFilter0 5 rfl).2.2.1⟩

/-- The natural logarithm of 10 lies strictly between 1 and 9. -/
lemma log_ten_bounds : 1 < Real.log 10 ∧ Real.log 10 ≤ 9 := by
  constructor
  · have h10 : Real.exp 1 < 10 := lt_of_lt_of_le Real.exp_one_lt_d9 (by norm_num)
    exact (Real.lt_log_iff_exp_lt (by norm_num)).mpr h10
  · have h := Real.log_le_sub_one_of_pos (show (0:ℝ) < 10 by norm_num)
    linarith

/-- The logarithm of the floor level 1/10000. -/
lemma log_minimum_level : Real.log ((1 : ℝ) / 10000) = -(4 * Real.log 10) := by
  rw [show (1 / 10000 : ℝ) = ((10 : ℝ) ^ (4 : ℕ))⁻¹ by norm_num, Real.log_inv,
    Real.log_pow]
  push_cast
  ring

/-- A freshly constructed envelope with a one-frame attack stage
(attack = decay = sustain = release = 1, sample rate 1). -/
def adsrC3 : adsrEnvelope := mkADSREnvelope 1 1 1 1 1

/-- Single-tick behaviour in a ramping stage with ticks remaining: the level
is multiplied by the in-flight multiplier and the tick counter advances. -/
lemma tick_ramping (e : adsrEnvelope)
    (hs : e.currentStage = adsrAttackStage ∨ e.currentStage = adsrDecayStage ∨
      e.currentStage = adsrReleaseStage)
    (ht : (e.currentTick : ℝ) < e.stage e.currentStage) :
    e.tick = {e with currentLevel := e.currentLevel * e.multiplier,
                     currentTick := e.currentTick + 1} := by
  unfold adsrEnvelope.tick
  have hcond : e.currentStage ≠ adsrOffStage ∧ e.currentStage ≠ adsrSustainStage := by
    rcases hs with h | h | h <;> rw [h] <;>
      simp [adsrOffStage, adsrAttackStage, adsrDecayStage, adsrSustainStage,
        adsrReleaseStage]
  rw [if_pos hcond, if_pos ht]

/-- The explicit state of `adsrC3` after construction. -/
def adsrC3lit : adsrEnvelope :=
  { stageOff := 1 / 10000, stageAttack := 1, stageDecay := 1,
    stageSustain := 1, stageRelease := 1,
    currentStage := adsrAttackStage, currentTick := 0,
    currentLevel := 1 / 10000,
    multiplier := 1 + 4 * Real.log 10,
    sampleRate := 1, hasDoneAction := false, ranDoneAction := false }

/-- C3 counterexample: for the fresh envelope `adsrC3`, the attack stage has
frame count N = 1 and target level 1, yet after exactly N = 1 ticks the
level is below 1/100 — nowhere near the target — because the per-tick
multiplier `1 + (ln 1 - ln 0.0001)/1` closes only a vanishing part of the
exponential gap when N is small. -/
theorem attack_level_misses_target_after_stage :
    adsrC3.currentStage = adsrAttackStage ∧
    adsrC3.stage adsrAttackStage = 1 ∧
    0 < (adsrC3.tickN 1).currentLevel ∧
    (adsrC3.tickN 1).currentLevel < 1 / 100 := by
  obtain ⟨hlo, hhi⟩ := log_ten_bounds
  have hstate : adsrC3 = adsrC3lit := by
    simp only [adsrC3, adsrC3lit, mkADSREnvelope, adsrEnvelope.setAttack,
      adsrEnvelope.setDecay, adsrEnvelope.setSustain, adsrEnvelope.setRelease,
      adsrEnvelope.attack, calculateLevelMultiplier, adsrMinimumLevel,
      adsrOffStage, adsrAttackStage, adsrDecayStage, adsrSustainStage,
      adsrReleaseStage]
    norm_num [log_minimum_level]
  have htlev : (adsrC3lit.tickN 1).currentLevel =
      1 / 10000 * (1 + 4 * Real.log 10) := by
    rw [adsrEnvelope.tickN, adsrEnvelope.tickN,
      tick_ramping adsrC3lit (Or.inl rfl)
        (by norm_num [adsrC3lit, adsrEnvelope.stage, adsrOffStage,
          adsrAttackStage])]
    rfl
  rw [hstate]
  refine ⟨rfl, ?_, ?_, ?_⟩
  · norm_num [adsrC3lit, adsrEnvelope.stage, adsrOffStage, adsrAttackStage]
  · rw [htlev]; nlinarith
  · rw [htlev]; nlinarith

/-- C3 (amended): for any envelope in a ramping stage (Attack, Decay or
Release) entered with tick counter 0 and stage frame count N >= 1, after
exactly k <= N ticks the level equals `currentLevel * multiplier ^ k` (so
after N ticks it is the start level times the N-th power of the per-tick
multiplier — only an approximation of the target, not within a fixed small
tolerance of it), and the transition to the next stage occurs
deterministically on tick N + 1 (ticks 1..N multiply the level, tick N + 1
performs the stage switch and resets the tick counter). -/
theorem ramping_stage_level_and_transition (e : adsrEnvelope) (N : ℕ)
    (hs : e.currentStage = adsrAttackStage ∨ e.currentStage = adsrDecayStage ∨
      e.currentStage = adsrReleaseStage)
    (h0 : e.currentTick = 0)
    (hN : e.stage e.currentStage = (N : ℝ))
    (hN1 : 1 ≤ N) :
    (∀ k, k ≤ N →
      (e.tickN k).currentLevel = e.currentLevel * e.multiplier ^ k ∧
      (e.tickN k).currentStage = e.currentStage ∧
      (e.tickN k).currentTick = (k : ℤ)) ∧
    (e.tickN (N + 1)).currentStage =
      (if e.currentStage = adsrAttackStage then adsrDecayStage
       else if e.currentStage = adsrDecayStage then adsrSustainStage
       else adsrOffStage) ∧
    (e.tickN (N + 1)).currentTick = 0 := by
  have key : ∀ k, k ≤ N → e.tickN k =
      {e with currentLevel := e.currentLevel * e.multiplier ^ k,
              currentTick := (k : ℤ)} := by
    intro k hk
    induction k with
    | zero =>
      simp only [adsrEnvelope.tickN, pow_zero, mul_one, Nat.cast_zero, ← h0]
    | succ n ih =>
      have hn : n ≤ N := Nat.le_of_succ_le hk
      have hlt : ((n : ℤ) : ℝ) < (N : ℝ) := by
        push_cast
        exact_mod_cast Nat.lt_of_succ_le hk
      have hrw := ih hn
      have hs2 : (e.tickN n).currentStage = adsrAttackStage ∨
          (e.tickN n).currentStage = adsrDecayStage ∨
          (e.tickN n).currentStage = adsrReleaseStage := by
        rw [hrw]; exact hs
      have ht2 : (((e.tickN n).currentTick : ℤ) : ℝ) <
          (e.tickN n).stage (e.tickN n).currentStage := by
        rw [hrw]
        show ((n : ℤ) : ℝ) < e.stage e.currentStage
        rw [hN]; exact hlt
      rw [adsrEnvelope.tickN, tick_ramping _ hs2 ht2, hrw]
      simp [pow_succ, mul_assoc, Nat.cast_add, Nat.cast_one]
  refine ⟨fun k hk => by rw [key k hk]; exact ⟨rfl, rfl, rfl⟩, ?_, ?_⟩ <;>
  · rw [adsrEnvelope.tickN, key N le_rfl]
    rcases hs with h | h | h <;>
      rw [h] at hN ⊢ <;>
      simp only [adsrEnvelope.stage, adsrOffStage, adsrAttackStage,
        adsrDecayStage, adsrSustainStage, adsrReleaseStage] at hN <;>
      norm_num at hN <;>
      simp [adsrEnvelope.tick, adsrEnvelope.stage, hN, adsrOffStage,
        adsrAttackStage, adsrDecayStage, adsrSustainStage, adsrReleaseStage]

/-- The explicit state of `mkADSREnvelope 0 1 (1/10000) 1 1` right after
construction (zero-frame attack, one-frame decay, sustain at the floor). -/
def adsrC4lit : adsrEnvelope :=
  { stageOff := 1 / 10000, stageAttack := 0, stageDecay := 1,
    stageSustain := 1 / 10000, stageRelease := 1,
    currentStage := adsrAttackStage, currentTick := 0,
    currentLevel := 1 / 10000,
    multiplier := 1 + 4 * Real.log 10,
    sampleRate := 1, hasDoneAction := false, ranDoneAction := false }

/-- The state of `adsrC4lit` after one tick: the attack stage (0 frames) is
exhausted, so the tick performs the Attack→Decay transition and installs
the decay multiplier `1 + (ln 0.0001 - ln 1)/1 = 1 - 4 ln 10 < 0`. -/
def adsrC4lit2 : adsrEnvelope :=
  { adsrC4lit with currentStage := adsrDecayStage,
                   multiplier := 1 - 4 * Real.log 10 }

/-- C4 counterexample: for the constructed envelope with a zero-frame
attack, a one-frame decay and sustain at the floor level, the second tick
multiplies the level by the negative decay multiplier `1 - 4 ln 10`, so the
level leaves the interval (0, 1] and becomes negative. -/
theorem decay_tick_drives_level_negative :
    ((mkADSREnvelope 0 1 (1 / 10000) 1 1).tickN 2).currentLevel < 0 := by
  obtain ⟨hlo, _⟩ := log_ten_bounds
  have hstate : mkADSREnvelope 0 1 (1 / 10000) 1 1 = adsrC4lit := by
    simp only [mkADSREnvelope, adsrEnvelope.setAttack, adsrEnvelope.setDecay,
      adsrEnvelope.setSustain, adsrEnvelope.setRelease, adsrEnvelope.attack,
      calculateLevelMultiplier, adsrMinimumLevel, adsrC4lit,
      adsrOffStage, adsrAttackStage, adsrDecayStage, adsrSustainStage,
      adsrReleaseStage]
    norm_num [log_minimum_level]
  have h1 : adsrC4lit.tick = adsrC4lit2 := by
    simp only [adsrEnvelope.tick, adsrC4lit, adsrC4lit2, adsrEnvelope.stage,
      calculateLevelMultiplier, adsrOffStage, adsrAttackStage, adsrDecayStage,
      adsrSustainStage, adsrReleaseStage]
    norm_num [log_minimum_level]
    ring
  have h2 : adsrC4lit2.tick.currentLevel =
      1 / 10000 * (1 - 4 * Real.log 10) := by
    rw [tick_ramping adsrC4lit2 (Or.inr (Or.inl rfl))
      (by norm_num [adsrC4lit2, adsrC4lit, adsrEnvelope.stage, adsrOffStage,
        adsrAttackStage, adsrDecayStage])]
    rfl
  have hexp : (mkADSREnvelope 0 1 (1 / 10000) 1 1).tickN 2 =
      adsrC4lit2.tick := by
    simp only [adsrEnvelope.tickN, hstate, h1]
  rw [hexp, h2]
  nlinarith

/-- C4 (amended): a tick taken inside a ramping stage (Attack, Decay or
Release, ticks remaining) multiplies the level by the in-flight
multiplier.  Hence the level stays positive and moves monotonically in the
multiplier's direction whenever the multiplier is positive (below 1 it
decreases the level toward a lower target, at or above 1 it increases it),
and a multiplier produced by `calculateLevelMultiplier` is at most 1 when
the target is at or below the start and at least 1 when it is at or above
— but the level is NOT confined to (0, 1] in general: a negative in-flight
multiplier (see the counterexample) sends it negative, and attack
retriggers can push it above 1. -/
theorem ramping_tick_level_step (e : adsrEnvelope)
    (hs : e.currentStage = adsrAttackStage ∨ e.currentStage = adsrDecayStage ∨
      e.currentStage = adsrReleaseStage)
    (ht : (e.currentTick : ℝ) < e.stage e.currentStage) :
    e.tick.currentLevel = e.currentLevel * e.multiplier ∧
    (0 < e.multiplier → 0 < e.currentLevel → 0 < e.tick.currentLevel) ∧
    (0 < e.currentLevel → e.multiplier ≤ 1 →
      e.tick.currentLevel ≤ e.currentLevel) ∧
    (0 < e.currentLevel → 1 ≤ e.multiplier →
      e.currentLevel ≤ e.tick.currentLevel) ∧
    (∀ s t n : ℝ, 0 < t → t ≤ s → calculateLevelMultiplier s t n ≤ 1) ∧
    (∀ s t n : ℝ, 0 < s → s ≤ t → 1 ≤ calculateLevelMultiplier s t n) := by
  have hlev : e.tick.currentLevel = e.currentLevel * e.multiplier := by
    rw [tick_ramping e hs ht]
  refine ⟨hlev, ?_, ?_, ?_, ?_, ?_⟩
  · intro hm hl; rw [hlev]; exact mul_pos hl hm
  · intro hl hm; rw [hlev]; nlinarith
  · intro hl hm; rw [hlev]; nlinarith
  · intro s t n ht0 hts
    have hlog : Real.log t ≤ Real.log s :=
      (Real.log_le_log_iff ht0 (lt_of_lt_of_le ht0 hts)).mpr hts
    unfold calculateLevelMultiplier
    split
    · linarith
    · rename_i hn
      have hn1 : (1 : ℝ) ≤ n := not_lt.mp hn
      have hdiv : (Real.log t - Real.log s) / n ≤ 0 :=
        div_nonpos_iff.mpr (Or.inr ⟨by linarith, by linarith⟩)
      linarith
  · intro s t n hs0 hst
    have hlog : Real.log s ≤ Real.log t :=
      (Real.log_le_log_iff hs0 (lt_of_lt_of_le hs0 hst)).mpr hst
    unfold calculateLevelMultiplier
    split
    · linarith
    · rename_i hn
      have hn1 : (1 : ℝ) ≤ n := not_lt.mp hn
      have hdiv : 0 ≤ (Real.log t - Real.log s) / n :=
        div_nonneg (by linarith) (by linarith)
      linarith

/-- A concrete envelope at the start of a two-frame decay stage. -/
def adsrW : adsrEnvelope :=
  { stageOff := adsrMinimumLevel, stageAttack := 1, stageDecay := 2,
    stageSustain := 1 / 2, stageRelease := 1,
    currentStage := adsrDecayStage, currentTick := 0,
    currentLevel := 1, multiplier := 1 / 2,
    sampleRate := 1, hasDoneAction := false, ranDoneAction := false }

/-- C3 witness: the amended theorem applied to the concrete envelope
`adsrW`, in the decay stage with N = 2 frames. -/
theorem ramping_stage_level_and_transition_witness :
    (adsrW.tickN 2).currentLevel = adsrW.currentLevel * adsrW.multiplier ^ 2 ∧
    (adsrW.tickN 3).currentStage = adsrSustainStage := by
  have h := ramping_stage_level_and_transition adsrW 2
    (Or.inr (Or.inl rfl)) rfl
    (by norm_num [adsrW, adsrEnvelope.stage, adsrOffStage, adsrAttackStage,
      adsrDecayStage])
    (by norm_num)
  refine ⟨(h.1 2 le_rfl).1, ?_⟩
  rw [show (3 : ℕ) = 2 + 1 from rfl, h.2.1]
  norm_num [adsrW, adsrDecayStage, adsrAttackStage, adsrSustainStage]

/-- C4 witness: the amended theorem applied to the concrete decay-stage
envelope `adsrW` (multiplier 1/2, level 1). -/
theorem ramping_tick_level_step_witness :
    adsrW.tick.currentLevel = adsrW.currentLevel * adsrW.multiplier ∧
    adsrW.tick.currentLevel ≤ adsrW.currentLevel := by
  have h := ramping_tick_level_step adsrW (Or.inr (Or.inl rfl))
    (by norm_num [adsrW, adsrEnvelope.stage, adsrOffStage, adsrAttackStage,
      adsrDecayStage])
  exact ⟨h.1, h.2.2.1 (by norm_num [adsrW]) (by norm_num [adsrW])⟩

/-- A concrete mono table of ten silent frames at 48 kHz. -/
def table0 : Table :=
  { channels := 1, sampleRate := 48000,
    samples := [0, 0, 0, 0, 0, 0, 0, 0, 0, 0], nFrames := 10 }

/-- A concrete looping player over `table0`: loop region [0, 9], phase 9,
phase increment 1/2 (at target, no slide), not finished. -/
def tpC6 : TablePlayer :=
  { sampleRate := 48000, srFactor := 1, amplitude := 1, dcOffset := 0,
    balanceMultiplierLeft := 1, balanceMultiplierRight := 1,
    amplitudeADSREnvelope := adsrW, filterLeft := newFilter,
    filterRight := newFilter, filterEnvelopeOn := false, filterCutoff := 0,
    filterEnvelopeDepth := 1 / 2, filterADSREnvelope := adsrW, table := table0,
    phase := 9, phaseIncrement := 1 / 2, targetPhaseIncrement := 1 / 2,
    slideFactor := 0, isLooping := true, startIdx := 0, endIdx := 9,
    loopStart := 0, loopEnd := 9, isReversed := false, isFinished := false,
    kRate := 100, kCurrentTick := 0, kMaxTicks := 481 }

/-- Truncation toward zero is monotone. -/
lemma go_int_mono {x y : ℝ} (h : x ≤ y) : go_int x ≤ go_int y := by
  unfold go_int
  by_cases hx : (0 : ℝ) ≤ x
  · rw [if_pos hx, if_pos (le_trans hx h)]
    exact Int.floor_mono h
  · by_cases hy : (0 : ℝ) ≤ y
    · rw [if_neg hx, if_pos hy]
      calc ⌈x⌉ ≤ 0 := Int.ceil_le.mpr (by push_cast; linarith [not_le.mp hx])
        _ ≤ ⌊y⌋ := Int.floor_nonneg.mpr hy
    · rw [if_neg hx, if_neg hy]
      exact Int.ceil_mono h

/-- Truncation of an integer is itself. -/
lemma go_int_intCast (n : ℤ) : go_int ((n : ℤ) : ℝ) = n := by
  unfold go_int
  split
  · exact Int.floor_intCast n
  · exact Int.ceil_intCast n

/-- The phase the main tick branch stores. -/
lemma tickActive_phase (tp : TablePlayer) :
    tp.tickActive.2.phase =
      (boundaryCheck tp (tp.phase + tp.phaseIncrement)
        (slideIncrement tp.phaseIncrement tp.targetPhaseIncrement
          tp.slideFactor)).1 := rfl

/-- The phase increment the main tick branch stores. -/
lemma tickActive_inc (tp : TablePlayer) :
    tp.tickActive.2.phaseIncrement =
      slideIncrement tp.phaseIncrement tp.targetPhaseIncrement tp.slideFactor := rfl

/-- The finished flag the main tick branch stores. -/
lemma tickActive_finished (tp : TablePlayer) :
    tp.tickActive.2.isFinished =
      (boundaryCheck tp (tp.phase + tp.phaseIncrement)
        (slideIncrement tp.phaseIncrement tp.targetPhaseIncrement
          tp.slideFactor)).2 := rfl

/-- Fields the main tick branch never changes. -/
lemma tickActive_unchanged (tp : TablePlayer) :
    tp.tickActive.2.isLooping = tp.isLooping ∧
    tp.tickActive.2.loopStart = tp.loopStart ∧
    tp.tickActive.2.loopEnd = tp.loopEnd ∧
    tp.tickActive.2.slideFactor = tp.slideFactor ∧
    tp.tickActive.2.targetPhaseIncrement = tp.targetPhaseIncrement ∧
    tp.tickActive.2.startIdx = tp.startIdx ∧
    tp.tickActive.2.endIdx = tp.endIdx ∧
    tp.tickActive.2.filterEnvelopeOn = tp.filterEnvelopeOn := by
  unfold TablePlayer.tickActive
  by_cases hfe : tp.filterEnvelopeOn = true <;>
    by_cases hk : tp.kCurrentTick = 0 <;>
      simp [hfe, hk]

/-- Behaviour of the early-return (finished) branch of the player's tick:
silent frame, phase/increment/region/flags untouched, amplitude envelope
advanced, filter envelope advanced exactly when enabled. -/
lemma tickFinished_spec (tp : TablePlayer) :
    tp.tickFinished.1 = (0, 0) ∧
    tp.tickFinished.2.phase = tp.phase ∧
    tp.tickFinished.2.phaseIncrement = tp.phaseIncrement ∧
    tp.tickFinished.2.targetPhaseIncrement = tp.targetPhaseIncrement ∧
    tp.tickFinished.2.slideFactor = tp.slideFactor ∧
    tp.tickFinished.2.isLooping = tp.isLooping ∧
    tp.tickFinished.2.loopStart = tp.loopStart ∧
    tp.tickFinished.2.loopEnd = tp.loopEnd ∧
    tp.tickFinished.2.isFinished = tp.isFinished ∧
    tp.tickFinished.2.amplitudeADSREnvelope = tp.amplitudeADSREnvelope.tick ∧
    (tp.filterEnvelopeOn = true →
      tp.tickFinished.2.filterADSREnvelope = tp.filterADSREnvelope.tick) ∧
    (tp.filterEnvelopeOn = false →
      tp.tickFinished.2.filterADSREnvelope = tp.filterADSREnvelope) := by
  unfold TablePlayer.tickFinished
  by_cases hfe : tp.filterEnvelopeOn = true <;> simp [hfe]

/-- A slid increment stays nonnegative when the old increment, the target
and the slide factor are nonnegative. -/
lemma slideIncrement_nonneg {inc target sf : ℝ} (hi : 0 ≤ inc)
    (ht : 0 ≤ target) (hsf : 0 ≤ sf) : 0 ≤ slideIncrement inc target sf := by
  unfold slideIncrement
  split_ifs <;> linarith

/-- A slid increment stays negative when the old increment and the target
are negative and the slide factor is nonnegative. -/
lemma slideIncrement_neg {inc target sf : ℝ} (hi : inc < 0)
    (ht : target < 0) (hsf : 0 ≤ sf) : slideIncrement inc target sf < 0 := by
  unfold slideIncrement
  split_ifs <;> linarith

/-- The state invariant maintained by a looping player: looping is on, the
loop indices are ordered and nonnegative, the slide factor is nonnegative,
the current and target increments lie on the same side of zero (as in every
state reachable through the public setters), and the integer read index
`int(phase)` lies within the loop region. -/
def LoopPhaseInv (tp : TablePlayer) : Prop :=
  tp.isLooping = true ∧
  0 ≤ tp.loopStart ∧ tp.loopStart ≤ tp.loopEnd ∧
  0 ≤ tp.slideFactor ∧
  ((0 ≤ tp.phaseIncrement ∧ 0 ≤ tp.targetPhaseIncrement) ∨
   (tp.phaseIncrement < 0 ∧ tp.targetPhaseIncrement < 0)) ∧
  tp.loopStart ≤ go_int tp.phase ∧ go_int tp.phase ≤ tp.loopEnd

/-- The boundary check of a looping player keeps the integer read index in
the loop region, given the one-sided bounds that follow from the direction
of travel. -/
lemma boundaryCheck_loop (tp : TablePlayer) (phase1 inc1 : ℝ)
    (hl : tp.isLooping = true)
    (hse : tp.loopStart ≤ tp.loopEnd)
    (hfwd : 0 ≤ inc1 → tp.loopStart ≤ go_int phase1)
    (hrev : ¬ 0 ≤ inc1 → go_int phase1 ≤ tp.loopEnd) :
    tp.loopStart ≤ go_int (boundaryCheck tp phase1 inc1).1 ∧
    go_int (boundaryCheck tp phase1 inc1).1 ≤ tp.loopEnd := by
  unfold boundaryCheck
  rw [if_pos hl]
  by_cases hd : 0 ≤ inc1
  · by_cases hwrap : tp.loopEnd < go_int phase1
    · rw [if_pos ⟨hd, hwrap⟩]
      simp only [go_int_intCast]
      exact ⟨le_rfl, hse⟩
    · rw [if_neg (by tauto), if_neg (by tauto)]
      exact ⟨hfwd hd, not_lt.mp hwrap⟩
  · by_cases hwrap : go_int phase1 < tp.loopStart
    · rw [if_neg (by tauto), if_pos ⟨hd, hwrap⟩]
      simp only [go_int_intCast]
      exact ⟨hse, le_rfl⟩
    · rw [if_neg (by tauto), if_neg (by tauto)]
      exact ⟨not_lt.mp hwrap, hrev hd⟩

/-- One tick of the player preserves the looping invariant. -/
lemma loop_phase_inv_tick (tp : TablePlayer) (h : LoopPhaseInv tp) :
    LoopPhaseInv tp.tick.2 := by
  obtain ⟨hl, h0, hse, hsf, hsign, hp1, hp2⟩ := h
  unfold TablePlayer.tick
  by_cases hf : tp.isFinished = true
  · rw [if_pos hf]
    obtain ⟨-, q1, q2, -, q3, q4, q5, q6, -, -, -, -⟩ := tickFinished_spec tp
    exact ⟨by rw [q4]; exact hl, by rw [q5]; exact h0, by rw [q5, q6]; exact hse,
      by rw [q3]; exact hsf, by rw [q2]; rw [show tp.tickFinished.2.targetPhaseIncrement = tp.targetPhaseIncrement from (tickFinished_spec tp).2.2.2.1]; exact hsign,
      by rw [q1, q5]; exact hp1, by rw [q1, q6]; exact hp2⟩
  · rw [if_neg hf]
    obtain ⟨u1, u2, u3, u4, u5, -, -, -⟩ := tickActive_unchanged tp
    have hinc := tickActive_inc tp
    have hph := tickActive_phase tp
    have hmono := go_int_mono (le_refl tp.phase)
    rcases hsign with ⟨hi, ht⟩ | ⟨hi, ht⟩
    · have hinc1 : 0 ≤ slideIncrement tp.phaseIncrement tp.targetPhaseIncrement
          tp.slideFactor := slideIncrement_nonneg hi ht hsf
      have hb := boundaryCheck_loop tp (tp.phase + tp.phaseIncrement)
        (slideIncrement tp.phaseIncrement tp.targetPhaseIncrement tp.slideFactor)
        hl hse
        (fun _ => le_trans hp1 (go_int_mono (by linarith)))
        (fun hc => absurd hinc1 hc)
      exact ⟨by rw [u1]; exact hl, by rw [u2]; exact h0, by rw [u2, u3]; exact hse,
        by rw [u4]; exact hsf,
        Or.inl ⟨by rw [hinc]; exact hinc1, by rw [u5]; exact ht⟩,
        by rw [hph, u2]; exact hb.1, by rw [hph, u3]; exact hb.2⟩
    · have hinc1 : slideIncrement tp.phaseIncrement tp.targetPhaseIncrement
          tp.slideFactor < 0 := slideIncrement_neg hi ht hsf
      have hb := boundaryCheck_loop tp (tp.phase + tp.phaseIncrement)
        (slideIncrement tp.phaseIncrement tp.targetPhaseIncrement tp.slideFactor)
        hl hse
        (fun hc => absurd hc (not_le.mpr hinc1))
        (fun _ => le_trans (go_int_mono (by linarith)) hp2)
      exact ⟨by rw [u1]; exact hl, by rw [u2]; exact h0, by rw [u2, u3]; exact hse,
        by rw [u4]; exact hsf,
        Or.inr ⟨by rw [hinc]; exact hinc1, by rw [u5]; exact ht⟩,
        by rw [hph, u2]; exact hb.1, by rw [hph, u3]; exact hb.2⟩

/-- The player's tick leaves the loop region fields unchanged in both
branches. -/
lemma tick_loop_fields (tp : TablePlayer) :
    tp.tick.2.loopStart = tp.loopStart ∧ tp.tick.2.loopEnd = tp.loopEnd := by
  unfold TablePlayer.tick
  by_cases hf : tp.isFinished = true
  · rw [if_pos hf]
    exact ⟨(tickFinished_spec tp).2.2.2.2.2.2.1,
      (tickFinished_spec tp).2.2.2.2.2.2.2.1⟩
  · rw [if_neg hf]
    exact ⟨(tickActive_unchanged tp).2.1, (tickActive_unchanged tp).2.2.1⟩

/-- C6 counterexample: the concrete looping player `tpC6` starts with its
phase inside the loop region [loopStart, loopEnd] = [0, 9], yet after one
tick the (fractional) phase is 9.5, strictly beyond loopEnd: the wrap test
compares `int(phase)` with the loop bounds, so the raw phase can exceed
loopEnd by up to one frame. -/
theorem looping_phase_exceeds_loop_end :
    tpC6.isLooping = true ∧
    ((tpC6.loopStart : ℤ) : ℝ) ≤ tpC6.phase ∧
    tpC6.phase ≤ ((tpC6.loopEnd : ℤ) : ℝ) ∧
    ((tpC6.loopEnd : ℤ) : ℝ) < tpC6.tick.2.phase := by
  have hfl : go_int ((19 : ℝ) / 2) = 9 := by
    unfold go_int
    rw [if_pos (by norm_num), Int.floor_eq_iff]
    constructor <;> push_cast <;> norm_num
  have ht : tpC6.tick = tpC6.tickActive := by
    unfold TablePlayer.tick
    rw [if_neg (by simp [tpC6])]
  have hphase : tpC6.tick.2.phase = 19 / 2 := by
    rw [ht, tickActive_phase]
    have hslide : slideIncrement tpC6.phaseIncrement tpC6.targetPhaseIncrement
        tpC6.slideFactor = 1 / 2 := by
      norm_num [tpC6, slideIncrement]
    rw [hslide]
    have hsum : tpC6.phase + tpC6.phaseIncrement = 19 / 2 := by
      norm_num [tpC6]
    rw [hsum]
    unfold boundaryCheck
    norm_num [tpC6, hfl]
  refine ⟨rfl, by norm_num [tpC6], by norm_num [tpC6], ?_⟩
  rw [hphase]
  norm_num [tpC6]

/-- C6 (amended): for a looping player whose state satisfies the reachable
side conditions collected in `LoopPhaseInv` (nonnegative ordered loop
indices, nonnegative slide factor, current and target increments on the
same side of zero) and whose integer read index `int(phase)` starts inside
[loopStart, loopEnd], the integer read index remains within
[loopStart, loopEnd] after arbitrarily many ticks, in either playback
direction and for any increment magnitude — though the fractional phase
itself may exceed loopEnd by less than one frame (see the
counterexample). -/
theorem looping_int_phase_stays_in_loop_region (tp : TablePlayer)
    (h : LoopPhaseInv tp) (n : ℕ) :
    (tp.tickN n).loopStart = tp.loopStart ∧
    (tp.tickN n).loopEnd = tp.loopEnd ∧
    tp.loopStart ≤ go_int ((tp.tickN n).phase) ∧
    go_int ((tp.tickN n).phase) ≤ tp.loopEnd := by
  have hconst : ∀ m, (tp.tickN m).loopStart = tp.loopStart ∧
      (tp.tickN m).loopEnd = tp.loopEnd := by
    intro m
    induction m with
    | zero => exact ⟨rfl, rfl⟩
    | succ k ih =>
      have hk := tick_loop_fields (tp.tickN k)
      exact ⟨by rw [TablePlayer.tickN, hk.1, ih.1],
             by rw [TablePlayer.tickN, hk.2, ih.2]⟩
  have hinv : ∀ m, LoopPhaseInv (tp.tickN m) := by
    intro m
    induction m with
    | zero => exact h
    | succ k ih => exact loop_phase_inv_tick _ ih
  refine ⟨(hconst n).1, (hconst n).2, ?_, ?_⟩
  · rw [← (hconst n).1]
    exact (hinv n).2.2.2.2.2.1
  · rw [← (hconst n).2]
    exact (hinv n).2.2.2.2.2.2

/-- A tick of a finished player keeps it finished and silent. -/
lemma tick_stays_finished (tp : TablePlayer) (hf : tp.isFinished = true) :
    tp.tick.2.isFinished = true ∧ tp.tick.1 = (0, 0) := by
  have ht : tp.tick = tp.tickFinished := by
    unfold TablePlayer.tick
    rw [if_pos hf]
  rw [ht]
  exact ⟨by rw [(tickFinished_spec tp).2.2.2.2.2.2.2.2.1]; exact hf,
    (tickFinished_spec tp).1⟩

/-- C7: a finished (non-looping, out-of-region) player returns exactly
(0,0) from every subsequent tick while `finished` stays true, and each such
tick still advances the amplitude envelope (and the filter envelope exactly
when it is enabled); moreover a running non-looping player whose advanced
phase index passes `end` becomes finished on that tick, with the phase
clamped to `end`. -/
theorem nonlooping_finished_silence (tp : TablePlayer) :
    (tp.isFinished = true →
      tp.tick.1 = (0, 0) ∧
      tp.tick.2.isFinished = true ∧
      tp.tick.2.amplitudeADSREnvelope = tp.amplitudeADSREnvelope.tick ∧
      (tp.filterEnvelopeOn = true →
        tp.tick.2.filterADSREnvelope = tp.filterADSREnvelope.tick) ∧
      (tp.filterEnvelopeOn = false →
        tp.tick.2.filterADSREnvelope = tp.filterADSREnvelope) ∧
      (∀ n, (tp.tickN n).isFinished = true ∧ (tp.tickN n).tick.1 = (0, 0))) ∧
    (tp.isFinished = false → tp.isLooping = false →
      tp.endIdx < go_int (tp.phase + tp.phaseIncrement) →
      tp.tick.2.isFinished = true ∧
      tp.tick.2.phase = ((tp.endIdx : ℤ) : ℝ)) := by
  constructor
  · intro hf
    have ht : tp.tick = tp.tickFinished := by
      unfold TablePlayer.tick
      rw [if_pos hf]
    have hspec := tickFinished_spec tp
    have hall : ∀ n, (tp.tickN n).isFinished = true := by
      intro n
      induction n with
      | zero => exact hf
      | succ k ih => exact (tick_stays_finished _ ih).1
    refine ⟨by rw [ht]; exact hspec.1,
      by rw [ht, hspec.2.2.2.2.2.2.2.2.1]; exact hf,
      by rw [ht]; exact hspec.2.2.2.2.2.2.2.2.2.1,
      by rw [ht]; exact hspec.2.2.2.2.2.2.2.2.2.2.1,
      by rw [ht]; exact hspec.2.2.2.2.2.2.2.2.2.2.2,
      fun n => ⟨hall n, (tick_stays_finished _ (hall n)).2⟩⟩
  · intro hnf hl hcross
    have ht : tp.tick = tp.tickActive := by
      unfold TablePlayer.tick
      rw [if_neg (by simp [hnf])]
    rw [ht, tickActive_finished, tickActive_phase]
    unfold boundaryCheck
    rw [if_neg (by simp [hl]), if_pos hcross]
    exact ⟨rfl, rfl⟩

/-- A concrete finished non-looping player. -/
def tpC7fin : TablePlayer :=
  { tpC6 with isLooping := false, isFinished := true }

/-- A concrete running non-looping player about to cross its end index
(phase 9, increment 3/2, end 9). -/
def tpC7run : TablePlayer :=
  { tpC6 with isLooping := false, phaseIncrement := 3 / 2,
              targetPhaseIncrement := 3 / 2 }

/-- C7 witness: the theorem applied to the concrete players `tpC7fin` and
`tpC7run`. -/
theorem nonlooping_finished_silence_witness :
    tpC7fin.tick.1 = (0, 0) ∧ (tpC7fin.tickN 2).isFinished = true ∧
    tpC7run.tick.2.isFinished = true := by
  have hfl : go_int ((21 : ℝ) / 2) = 10 := by
    unfold go_int
    rw [if_pos (by norm_num), Int.floor_eq_iff]
    constructor <;> push_cast <;> norm_num
  have h1 := nonlooping_finished_silence tpC7fin
  have h2 := nonlooping_finished_silence tpC7run
  refine ⟨(h1.1 rfl).1, ((h1.1 rfl).2.2.2.2.2 2).1, (h2.2 rfl rfl ?_).1⟩
  show tpC7run.endIdx < go_int (tpC7run.phase + tpC7run.phaseIncrement)
  have hsum : tpC7run.phase + tpC7run.phaseIncrement = 21 / 2 := by
    norm_num [tpC7run, tpC6]
  rw [hsum, hfl]
  norm_num [tpC7run, tpC6]

/-- C9: invalid per-voice setter arguments are silently ignored, leaving
the whole player state exactly as it was, and the setters (modelled as
total state transformers, mirroring the Go methods that return nothing)
produce no error: `SetSpeed` with a non-positive speed, `SetBalance` with a
balance outside [-1, 1], and `SetSlice` whose clamped fractions are not
increasing or whose frame-index span is below one frame, are all
identities. -/
theorem invalid_setter_arguments_ignored (tp : TablePlayer)
    (speed balance sf ef : ℝ) (o : Option ℝ)
    (hsp : speed ≤ 0)
    (hb : balance < -1 ∨ 1 < balance)
    (hse : ¬ min (max 0 sf) 1 < min (max 0 ef) 1 ∨
      go_int (((tp.table.nFrames - 1 : ℤ) : ℝ) * min (max 0 ef) 1) -
        go_int (((tp.table.nFrames - 1 : ℤ) : ℝ) * min (max 0 sf) 1) < 1) :
    tp.setSpeed speed o = tp ∧
    tp.setBalance balance = tp ∧
    tp.setSlice sf ef = tp := by
  refine ⟨?_, ?_, ?_⟩
  · unfold TablePlayer.setSpeed
    rw [if_pos hsp]
  · unfold TablePlayer.setBalance
    rw [if_pos hb]
  · unfold TablePlayer.setSlice
    rcases hse with h | h
    · rw [if_neg h]
    · by_cases hc : min (max 0 sf) 1 < min (max 0 ef) 1
      · rw [if_pos hc, if_neg (not_le.mpr h)]
      · rw [if_neg hc]

/-- C9 witness: the theorem applied to the concrete player `tpC6` with
speed -1, balance 2, and the degenerate slice (1/2, 1/2). -/
theorem invalid_setter_arguments_ignored_witness :
    tpC6.setSpeed (-1) none = tpC6 ∧
    tpC6.setBalance 2 = tpC6 ∧
    tpC6.setSlice (1 / 2) (1 / 2) = tpC6 :=
  invalid_setter_arguments_ignored tpC6 (-1) 2 (1 / 2) (1 / 2) none
    (by norm_num) (Or.inr (by norm_num)) (Or.inl (by norm_num))

/-- C10: `SetLooping(true)` clears the finished flag (and turns looping on)
while leaving the phase untouched, so the following tick takes the active
branch that reads and outputs table samples again — being finished is not
permanent across control operations, only across ticks. -/
theorem set_looping_true_revives (tp : TablePlayer) :
    (tp.setLooping true).isFinished = false ∧
    (tp.setLooping true).isLooping = true ∧
    (tp.setLooping true).phase = tp.phase ∧
    (tp.setLooping true).tick = (tp.setLooping true).tickActive := by
  refine ⟨rfl, rfl, rfl, ?_⟩
  unfold TablePlayer.tick
  rw [if_neg (by simp [TablePlayer.setLooping])]

/-- C6 witness: the amended theorem applied to the concrete looping player
`tpC6` for three ticks. -/
theorem looping_int_phase_witness :
    tpC6.loopStart ≤ go_int ((tpC6.tickN 3).phase) ∧
    go_int ((tpC6.tickN 3).phase) ≤ tpC6.loopEnd := by
  have h9 : go_int ((9 : ℝ)) = 9 := by
    rw [show (9 : ℝ) = ((9 : ℤ) : ℝ) by norm_num, go_int_intCast]
  have hInv : LoopPhaseInv tpC6 := by
    refine ⟨rfl, by norm_num [tpC6], by norm_num [tpC6], by norm_num [tpC6],
      Or.inl ⟨by norm_num [tpC6], by norm_num [tpC6]⟩, ?_, ?_⟩ <;>
      · show _ ≤ _
        norm_num [tpC6, h9]
  have h := looping_int_phase_stays_in_loop_region tpC6 hInv 3
  exact ⟨h.2.2.1, h.2.2.2⟩

/-- A delay-state event tick with delay frames remaining: silent frame,
decrement, nothing else touched. -/
lemma event_tick_delay (p : playbackEvent) (hs : p.currentState = playbackDelay)
    (hpos : 0 < p.delayInFrames) :
    p.tick = ((0, 0), {p with delayInFrames := p.delayInFrames - 1}) := by
  unfold playbackEvent.tick
  rw [hs]
  simp [playbackDelay, playbackLimitedDuration, playbackUnlimitedDuration, hpos]

/-- A limited-duration event tick with duration frames remaining draws a
frame from the table player and decrements the remaining duration. -/
lemma event_tickLimited_pos (p : playbackEvent) (hpos : 0 < p.durationInFrames) :
    p.tickLimited = (p.player.tick.1,
      {p with durationInFrames := p.durationInFrames - 1,
              player := p.player.tick.2}) := by
  unfold playbackEvent.tickLimited
  rw [if_pos hpos]

/-- A limited-duration event tick with the duration exhausted switches to
unlimited duration, invokes the player's `Release()`, and ticks the
released player. -/
lemma event_tickLimited_zero (p : playbackEvent)
    (hz : ¬ 0 < p.durationInFrames) :
    p.tickLimited = ((p.player.release).tick.1,
      {p with currentState := playbackUnlimitedDuration,
              player := (p.player.release).tick.2}) := by
  unfold playbackEvent.tickLimited playbackEvent.tickUnlimited
  rw [if_neg hz]

/-- The event tick dispatcher in the limited-duration state. -/
lemma event_tick_limited_state (p : playbackEvent)
    (hs : p.currentState = playbackLimitedDuration) :
    p.tick = p.tickLimited := by
  unfold playbackEvent.tick
  rw [hs, if_pos rfl]

/-- The event tick dispatcher in the delay state with the delay exhausted
and a limited duration: transition to the limited-duration arm. -/
lemma event_tick_delay_exhausted (p : playbackEvent)
    (hs : p.currentState = playbackDelay) (hz : ¬ 0 < p.delayInFrames)
    (hlim : p.isLimitedDuration = true) :
    p.tick = ({p with currentState := playbackLimitedDuration} :
      playbackEvent).tickLimited := by
  unfold playbackEvent.tick
  rw [hs]
  simp [playbackDelay, playbackLimitedDuration, playbackUnlimitedDuration,
    hz, hlim]

/-- The event states across the delay phase: after `k <= D` ticks the event
is unchanged except that `D - k` delay frames remain. -/
lemma event_delay_states (p : playbackEvent) (D : ℕ)
    (hs : p.currentState = playbackDelay) (hD : p.delayInFrames = (D : ℤ)) :
    ∀ k, k ≤ D → p.tickN k =
      {p with delayInFrames := (D : ℤ) - (k : ℤ)} := by
  intro k hk
  induction k with
  | zero =>
    simp only [playbackEvent.tickN, Nat.cast_zero, sub_zero, ← hD]
  | succ n ih =>
    have hn : n ≤ D := Nat.le_of_succ_le hk
    have hpos : (0 : ℤ) < (D : ℤ) - (n : ℤ) := by
      have : (n : ℤ) < (D : ℤ) := by exact_mod_cast Nat.lt_of_succ_le hk
      linarith
    have harith : (D : ℤ) - (n : ℤ) - 1 = (D : ℤ) - ((n + 1 : ℕ) : ℤ) := by
      push_cast
      ring
    rw [playbackEvent.tickN, ih hn,
      event_tick_delay {p with delayInFrames := (D : ℤ) - (n : ℤ)} hs hpos]
    show ({p with delayInFrames := (D : ℤ) - (n : ℤ) - 1} : playbackEvent) = _
    rw [harith]

/-- The event states across the limited-duration phase: after `j <= T`
ticks from a limited state with `T` duration frames, `T - j` frames remain
and the player has been ticked `j` times. -/
lemma event_limited_states (p : playbackEvent) (T : ℕ)
    (hs : p.currentState = playbackLimitedDuration)
    (hT : p.durationInFrames = (T : ℤ)) :
    ∀ j, j ≤ T → p.tickN j =
      {p with durationInFrames := (T : ℤ) - (j : ℤ),
              player := p.player.tickN j} := by
  intro j hj
  induction j with
  | zero =>
    simp only [playbackEvent.tickN, Nat.cast_zero, sub_zero, ← hT,
      TablePlayer.tickN]
  | succ n ih =>
    have hn : n ≤ T := Nat.le_of_succ_le hj
    have hpos : (0 : ℤ) < (T : ℤ) - (n : ℤ) := by
      have : (n : ℤ) < (T : ℤ) := by exact_mod_cast Nat.lt_of_succ_le hj
      linarith
    have harith : (T : ℤ) - (n : ℤ) - 1 = (T : ℤ) - ((n + 1 : ℕ) : ℤ) := by
      push_cast
      ring
    rw [playbackEvent.tickN, ih hn,
      event_tick_limited_state
        {p with durationInFrames := (T : ℤ) - (n : ℤ),
                player := p.player.tickN n} hs,
      event_tickLimited_pos
        {p with durationInFrames := (T : ℤ) - (n : ℤ),
                player := p.player.tickN n} hpos]
    show ({p with durationInFrames := (T : ℤ) - (n : ℤ) - 1, player := (p.player.tickN n).tick.2} : playbackEvent) = _
    rw [harith, show p.player.tickN (n + 1) = (p.player.tickN n).tick.2 from rfl]

/-- C2: a playback event prepared with delay d > 0 and duration t > 0 at
stream sample rate sr, where D = floor(d·sr) and T = floor(t·sr): the
first D calls to tick() return the silent frame (0,0) without ticking the
table player; the next T calls return frames drawn from the table player's
tick(); and call number D+T+1 transitions the event to the
unlimited-duration state and invokes the player's Release() — putting the
amplitude envelope in its Release stage — before ticking the released
player. -/
theorem playback_event_lifecycle (tp : TablePlayer) (d t sr : ℝ) (D T : ℕ)
    (hd : 0 < d) (ht : 0 < t)
    (hD : go_int (d * sr) = (D : ℤ)) (hT : go_int (t * sr) = (T : ℤ)) :
    (∀ k, k < D →
      ((prepareEvent tp d t sr).tickN k).tick.1 = (0, 0) ∧
      ((prepareEvent tp d t sr).tickN k).player =
        (prepareEvent tp d t sr).player) ∧
    (∀ j, j < T →
      ((prepareEvent tp d t sr).tickN (D + j)).tick.1 =
        ((prepareEvent tp d t sr).player.tickN j).tick.1) ∧
    ((prepareEvent tp d t sr).tickN (D + T)).tick.2.currentState =
      playbackUnlimitedDuration ∧
    ((prepareEvent tp d t sr).tickN (D + T)).tick.2.player =
      (((prepareEvent tp d t sr).player.tickN T).release).tick.2 ∧
    (((prepareEvent tp d t sr).player.tickN
        T).release).amplitudeADSREnvelope.currentStage = adsrReleaseStage := by
  have hmax : max d 0 = d := max_eq_left (le_of_lt hd)
  have hp_state : (prepareEvent tp d t sr).currentState = playbackDelay := by
    show (if 0 < max d 0 then playbackDelay
      else if 0 < t then playbackLimitedDuration
      else playbackUnlimitedDuration) = playbackDelay
    rw [hmax, if_pos hd]
  have hp_delay : (prepareEvent tp d t sr).delayInFrames = (D : ℤ) := by
    show go_int (max d 0 * sr) = (D : ℤ)
    rw [hmax]
    exact hD
  have hp_dur : (prepareEvent tp d t sr).durationInFrames = (T : ℤ) := hT
  have hp_lim : (prepareEvent tp d t sr).isLimitedDuration = true :=
    decide_eq_true ht
  have hA := event_delay_states (prepareEvent tp d t sr) D hp_state hp_delay
  have hfirst : ∀ k, k < D →
      ((prepareEvent tp d t sr).tickN k).tick.1 = (0, 0) ∧
      ((prepareEvent tp d t sr).tickN k).player =
        (prepareEvent tp d t sr).player := by
    intro k hk
    have hpos : (0 : ℤ) < (D : ℤ) - (k : ℤ) := by
      have : (k : ℤ) < (D : ℤ) := by exact_mod_cast hk
      linarith
    rw [hA k (le_of_lt hk)]
    constructor
    · rw [event_tick_delay
        {prepareEvent tp d t sr with delayInFrames := (D : ℤ) - (k : ℤ)}
        hp_state hpos]
    · rfl
  set q1 : playbackEvent := {prepareEvent tp d t sr with delayInFrames := (D : ℤ) - (D : ℤ), currentState := playbackLimitedDuration} with hq1def
  have hq1dur : q1.durationInFrames = (T : ℤ) := hp_dur
  have htrans : ((prepareEvent tp d t sr).tickN D).tick = q1.tickLimited := by
    rw [hA D le_rfl]
    exact event_tick_delay_exhausted _ hp_state (by simp) hp_lim
  have hB := event_limited_states q1 T rfl hq1dur
  have hr : ∀ j, (prepareEvent tp d t sr).tickN (D + (j + 1)) =
      q1.tickN (j + 1) := by
    intro j
    induction j with
    | zero =>
      show ((prepareEvent tp d t sr).tickN D).tick.2 = q1.tick.2
      rw [htrans, event_tick_limited_state q1 rfl]
    | succ i ih =>
      show ((prepareEvent tp d t sr).tickN (D + (i + 1))).tick.2 =
        (q1.tickN (i + 1)).tick.2
      rw [ih]
  have hsecond : ∀ j, j < T →
      ((prepareEvent tp d t sr).tickN (D + j)).tick.1 =
        ((prepareEvent tp d t sr).player.tickN j).tick.1 := by
    intro j hj
    cases j with
    | zero =>
      have hq1pos : (0 : ℤ) < q1.durationInFrames := by
        rw [hq1dur]
        exact_mod_cast hj
      rw [show D + 0 = D from rfl, htrans, event_tickLimited_pos q1 hq1pos]
      rfl
    | succ i =>
      have hpos : (0 : ℤ) < (T : ℤ) - ((i + 1 : ℕ) : ℤ) := by
        have : ((i + 1 : ℕ) : ℤ) < (T : ℤ) := by exact_mod_cast hj
        linarith
      rw [hr i, hB (i + 1) (le_of_lt hj),
        event_tick_limited_state
          {q1 with durationInFrames := (T : ℤ) - ((i + 1 : ℕ) : ℤ), player := q1.player.tickN (i + 1)} rfl,
        event_tickLimited_pos
          {q1 with durationInFrames := (T : ℤ) - ((i + 1 : ℕ) : ℤ), player := q1.player.tickN (i + 1)} hpos]
  have hthird :
      ((prepareEvent tp d t sr).tickN (D + T)).tick.2.currentState =
        playbackUnlimitedDuration ∧
      ((prepareEvent tp d t sr).tickN (D + T)).tick.2.player =
        (((prepareEvent tp d t sr).player.tickN T).release).tick.2 := by
    cases T with
    | zero =>
      have hz : ¬ (0 : ℤ) < q1.durationInFrames := by
        rw [hq1dur]
        norm_num
      rw [show D + 0 = D from rfl, htrans, event_tickLimited_zero q1 hz]
      exact ⟨rfl, rfl⟩
    | succ m =>
      have hz : ¬ (0 : ℤ) <
          ((m + 1 : ℕ) : ℤ) - ((m + 1 : ℕ) : ℤ) := by
        norm_num
      rw [hr m, hB (m + 1) le_rfl,
        event_tick_limited_state
          {q1 with durationInFrames := ((m + 1 : ℕ) : ℤ) - ((m + 1 : ℕ) : ℤ), player := q1.player.tickN (m + 1)} rfl,
        event_tickLimited_zero
          {q1 with durationInFrames := ((m + 1 : ℕ) : ℤ) - ((m + 1 : ℕ) : ℤ), player := q1.player.tickN (m + 1)} hz]
      exact ⟨rfl, rfl⟩
  exact ⟨hfirst, hsecond, hthird.1, hthird.2, rfl⟩

/-- C2 witness: the lifecycle theorem applied to the concrete player
`tpC6` with delay 1 s, duration 1 s, sample rate 2 Hz (D = T = 2),
extracting the silent first call and the state transition of call
D + T + 1. -/
theorem playback_event_lifecycle_witness :
    ((prepareEvent tpC6 1 1 2).tickN 0).tick.1 = (0, 0) ∧
    ((prepareEvent tpC6 1 1 2).tickN 4).tick.2.currentState =
      playbackUnlimitedDuration := by
  have h2 : go_int ((1 : ℝ) * 2) = ((2 : ℕ) : ℤ) := by
    rw [show ((1 : ℝ) * 2) = (((2 : ℕ) : ℤ) : ℝ) by norm_num, go_int_intCast]
  have h := playback_event_lifecycle tpC6 1 1 2 2 2 (by norm_num) (by norm_num)
    h2 h2
  exact ⟨(h.1 0 (by norm_num)).1, h.2.2.1⟩

end

end Stereophonic
